import Mathlib

/-!
Shallow embedding of the `@logstitch/sdk` TypeScript client library:
the event data model (`src/types.ts`), the retrying delivery transport
(`src/retry.ts`), the batch queue (`src/queue.ts`), the facade/client
(`src/client.ts`), and the error type (`src/errors.ts`).

Machine numbers that matter here are small non-negative integers
(HTTP statuses, attempt counts, queue sizes), modelled as `Nat`;
backoff delays involve `Math.random()` and are modelled over `ℚ`
with the random draw passed in explicitly as a parameter in `[0,1)`.
Asynchronous/stateful code is modelled by explicit state passing;
fallible code returns `Except`.
-/

namespace LogStitch

/-- Actor type enum from `src/types.ts` (`ActorType`). -/
inductive ActorType
  | user
  | api_key
  | service
  | system
deriving DecidableEq, Repr

/-- Event category enum from `src/types.ts` (`EventCategory`). -/
inductive EventCategory
  | auth
  | access
  | mutation
  | admin
  | security
  | system
deriving DecidableEq, Repr

/-- Actor record from `src/types.ts`. -/
structure Actor where
  id : String
  type : ActorType
  name : Option String
  email : Option String
deriving DecidableEq, Repr

/-- Target record from `src/types.ts`. -/
structure Target where
  id : String
  type : String
  name : Option String
deriving DecidableEq, Repr

/-- Change triple from `src/types.ts`; `before`/`after` hold values of
arbitrary shape, modelled as their JSON text. -/
structure Change where
  field : String
  before : String
  after : String
deriving DecidableEq, Repr

/-- Event context from `src/types.ts`. -/
structure EventContext where
  ip_address : Option String
  user_agent : Option String
  location : Option String
  session_id : Option String
deriving DecidableEq, Repr

/-- EventInput record from `src/types.ts`. Optional fields are `Option`;
`metadata` is a free-form key/value mapping modelled as an association list. -/
structure EventInput where
  action : String
  category : EventCategory
  actor : Actor
  tenant_id : String
  target : Option Target
  context : Option EventContext
  metadata : List (String × String)
  changes : List Change
  idempotency_key : Option String
  occurred_at : Option String
deriving DecidableEq, Repr

/-- JavaScript truthiness test on an optional string, as used by
`!event.idempotency_key` (queue.ts line 31), the ternary condition
`e.idempotency_key ? ... : ...` (client.ts line 116) and
`!options.projectKey` (client.ts line 73): `undefined` and the empty
string are both falsy. -/
def strFalsy : Option String → Bool
  | none => true
  | some s => s = ""

/-- The copy-with-key construct shared by `BatchQueue.enqueue`
(queue.ts lines 31-33) and `LogStitch.logBatch` (client.ts lines 115-117):
if the event's `idempotency_key` is falsy, a shallow copy carrying a
freshly generated key (`crypto.randomUUID()`, passed in as `gen`) replaces
the event; otherwise the event is used as is. -/
def enrichEvent (gen : String) (e : EventInput) : EventInput :=
  if strFalsy e.idempotency_key then { e with idempotency_key := some gen } else e

/-- The enrichment `events.map(...)` performed by `LogStitch.logBatch`
(client.ts lines 115-117); the `crypto.randomUUID()` supply is modelled as
`gen`, indexed by the event's position. The result is the payload handed
to the transport. -/
def enrichAll (gen : Nat → String) : List EventInput → List EventInput
  | [] => []
  | e :: es => enrichEvent (gen 0) e :: enrichAll (fun i => gen (i + 1)) es

/-! ### Delivery transport: `src/retry.ts` -/

/-- Outcome of one `fetch(url, init)` call: a thrown transport-level error,
or a `Response` carrying an HTTP status. -/
inductive AttemptResult
  | networkError (msg : String)
  | response (status : Nat)
deriving DecidableEq, Repr

/-- Errors surfaced by `fetchWithRetry`: the last network error
(`lastError` from the catch branch), the `Error('HTTP ${res.status}')`
built for a retryable response, or the fallback
`Error('fetchWithRetry: exhausted retries')`. -/
inductive RetryError
  | network (msg : String)
  | http (status : Nat)
  | exhausted
deriving DecidableEq, Repr

/-- `Response.ok` per the fetch standard: status in the range 200-299. -/
def responseOk (status : Nat) : Bool :=
  200 ≤ status && status < 300

/-- The immediate-return condition of retry.ts line 31:
`res.ok || (res.status >= 400 && res.status < 500)`. -/
def returnNow (status : Nat) : Bool :=
  responseOk status || (400 ≤ status && status < 500)

/-- `getDelay` from retry.ts lines 45-50, with the `Math.random()` draw
passed in as `rand`: `capped + capped * rand` where
`capped = min (baseDelay * 2 ^ attempt) maxDelay`. -/
def getDelay (attempt : Nat) (baseDelay maxDelay : ℚ) (rand : ℚ) : ℚ :=
  let exponential := baseDelay * 2 ^ attempt
  let capped := min exponential maxDelay
  let jitter := capped * rand
  capped + jitter

instance instDecEqExcept {ε α : Type} [DecidableEq ε] [DecidableEq α] :
    DecidableEq (Except ε α) := fun x y =>
  match x, y with
  | .ok a, .ok b => decidable_of_iff (a = b) (by simp)
  | .ok _, .error _ => isFalse (by simp)
  | .error _, .ok _ => isFalse (by simp)
  | .error e, .error f => decidable_of_iff (e = f) (by simp)

/-- Observable trace of one `fetchWithRetry` run: the value returned or
error thrown, how many `fetch` calls were made, and the delays slept
(in order) between attempts. -/
structure RetryTrace where
  result : Except RetryError Nat
  calls : Nat
  delays : List ℚ
deriving DecidableEq, Repr

/-- The retry loop of `fetchWithRetry` (retry.ts lines 18-42).
`attempt` is the current 0-based attempt index; the second argument is the
number of attempts remaining (`maxAttempts - attempt`), so `rem = 0` inside
the `rem+1` pattern means this is the final attempt
(`attempt = maxAttempts - 1`, i.e. `attempt < maxAttempts - 1` fails).
`fetch` gives the outcome of the `fetch` call at each attempt index and
`rand` the `Math.random()` draw of `getDelay` at each attempt index. -/
def retryGo (fetch : Nat → AttemptResult) (rand : Nat → ℚ)
    (baseDelay maxDelay : ℚ) : Nat → Nat → RetryTrace
  | _, 0 => { result := .error .exhausted, calls := 0, delays := [] }
  | attempt, rem + 1 =>
    match fetch attempt with
    | .networkError msg =>
      if rem = 0 then
        { result := .error (.network msg), calls := 1, delays := [] }
      else
        let d := getDelay attempt baseDelay maxDelay (rand attempt)
        let rest := retryGo fetch rand baseDelay maxDelay (attempt + 1) rem
        { result := rest.result, calls := rest.calls + 1, delays := d :: rest.delays }
    | .response status =>
      if returnNow status then
        { result := .ok status, calls := 1, delays := [] }
      else if rem = 0 then
        { result := .error (.http status), calls := 1, delays := [] }
      else
        let d := getDelay attempt baseDelay maxDelay (rand attempt)
        let rest := retryGo fetch rand baseDelay maxDelay (attempt + 1) rem
        { result := rest.result, calls := rest.calls + 1, delays := d :: rest.delays }

/-- `RetryOptions` from `src/types.ts`: every field optional. -/
structure RetryOptions where
  maxAttempts : Option Nat
  baseDelay : Option ℚ
  maxDelay : Option ℚ
deriving DecidableEq, Repr

/-- Default fill-in of retry.ts lines 12-14 (defaults 3 / 500 / 30000). -/
def fetchWithRetry (fetch : Nat → AttemptResult) (rand : Nat → ℚ)
    (opts : Option RetryOptions) : RetryTrace :=
  let maxAttempts := (opts.bind (·.maxAttempts)).getD 3
  let baseDelay := (opts.bind (·.baseDelay)).getD 500
  let maxDelay := (opts.bind (·.maxDelay)).getD 30000
  retryGo fetch rand baseDelay maxDelay 0 maxAttempts

/-! ### Batch queue: `src/queue.ts` -/

/-- Configuration of `BatchQueue` (queue.ts lines 14-24). `onFlush` is
modelled separately, at each use site, as the handler function. -/
structure QueueConfig where
  batchSize : Nat
  flushInterval : Nat
  maxQueueSize : Nat
deriving DecidableEq, Repr

/-- Mutable state of a `BatchQueue`: the pending events, the `flushing`
guard (queue.ts line 12) and whether the periodic `setInterval` timer is
currently registered (`this.timer !== null`). -/
structure BatchQueueState where
  queue : List EventInput
  flushing : Bool
  timer : Bool
deriving DecidableEq, Repr

/-- State of a freshly constructed `BatchQueue` (queue.ts lines 6-12). -/
def BatchQueue.init : BatchQueueState :=
  { queue := [], flushing := false, timer := false }

/-- Result of one `enqueue` call: the new state, whether the event was
dropped by the backpressure check, and whether the size threshold fired
`void this.flush()`. -/
structure EnqueueResult where
  state : BatchQueueState
  dropped : Bool
  flushTriggered : Bool
deriving DecidableEq, Repr

/-- `BatchQueue.enqueue` (queue.ts lines 26-41). The fresh
`crypto.randomUUID()` value is passed in as `gen`. The function is total
(the source never throws) and records, rather than performs, the
asynchronous flush trigger of line 39. -/
def BatchQueue.enqueue (cfg : QueueConfig) (gen : String)
    (s : BatchQueueState) (event : EventInput) : EnqueueResult :=
  if s.queue.length ≥ cfg.maxQueueSize then
    { state := s, dropped := true, flushTriggered := false }
  else
    let event := enrichEvent gen event
    let s := { s with queue := s.queue ++ [event], timer := true }
    { state := s, dropped := false,
      flushTriggered := decide (s.queue.length ≥ cfg.batchSize) }

/-- First half of `BatchQueue.flush` (queue.ts lines 43-47), up to the
suspension point `await this.onFlush(batch)`: `none` when the early return
of line 44 fires (guard set or queue empty); otherwise the state after
`this.flushing = true; const batch = this.queue.splice(0)` together with
the drained batch. -/
def BatchQueue.flushStart (s : BatchQueueState) :
    Option (BatchQueueState × List EventInput) :=
  if s.flushing || s.queue.isEmpty then none
  else some ({ s with queue := [], flushing := true }, s.queue)

/-- Second half of `BatchQueue.flush` (queue.ts lines 48-52): when
`onFlush` settles with `outcome`, the `finally` block clears the guard and
the `try`/`finally` re-propagates the outcome to the caller of `flush()`. -/
def BatchQueue.flushFinish {ε : Type} (s : BatchQueueState)
    (outcome : Except ε Unit) : BatchQueueState × Except ε Unit :=
  ({ s with flushing := false }, outcome)

/-- A whole `flush()` call in which no interleaved operation runs while
`onFlush` is pending, with the handler modelled as a function from the
batch to its settled outcome. Returns the final state, the result
propagated to the caller of `flush()`, and the batch the handler was
invoked with (`none` when the handler was not invoked). -/
def BatchQueue.flushRun {ε : Type} (handler : List EventInput → Except ε Unit)
    (s : BatchQueueState) :
    BatchQueueState × Except ε Unit × Option (List EventInput) :=
  match BatchQueue.flushStart s with
  | none => (s, .ok (), none)
  | some (s', batch) =>
    ((BatchQueue.flushFinish s' (handler batch)).1, handler batch, some batch)

/-- Interleavable queue operations on the shared state: an `enqueue`
(with its fresh UUID), the synchronous first half of a `flush`, and the
completion of a pending flush with a success/failure outcome. -/
inductive QueueOp
  | enq (gen : String) (e : EventInput)
  | flushBegin
  | flushEnd (ok : Bool)
deriving DecidableEq, Repr

/-- Effect of one interleaved operation on the queue state. -/
def QueueOp.apply (cfg : QueueConfig) (s : BatchQueueState) : QueueOp → BatchQueueState
  | .enq gen e => (BatchQueue.enqueue cfg gen s e).state
  | .flushBegin =>
    match BatchQueue.flushStart s with
    | none => s
    | some (s', _) => s'
  | .flushEnd ok =>
    (BatchQueue.flushFinish s (if ok then Except.ok () else Except.error ())).1

/-- State after running a sequence of interleaved operations. -/
def runOps (cfg : QueueConfig) (s : BatchQueueState) (ops : List QueueOp) :
    BatchQueueState :=
  ops.foldl (fun t op => QueueOp.apply cfg t op) s

/-! ### Facade/client: `src/client.ts`, errors: `src/errors.ts` -/

/-- `LogStitchError` from `src/errors.ts` (API error) alongside a
transport-level failure, as the facade's error taxonomy. -/
inductive SendError
  | api (status : Nat) (code : String) (message : String) (requestId : String)
  | transport (msg : String)
deriving DecidableEq, Repr

/-- `LogStitchOptions` from `src/types.ts`. `projectKey` is declared
required, but JavaScript callers can still omit it, hence `Option`; the
error callback is modelled by its presence. -/
structure LogStitchOptions where
  projectKey : Option String
  baseUrl : Option String
  batchSize : Option Nat
  flushInterval : Option Nat
  maxQueueSize : Option Nat
  strict : Option Bool
  hasOnError : Bool
deriving DecidableEq, Repr

/-- Client mode (client.ts line 26). -/
inductive Mode
  | authenticated
  | stream
deriving DecidableEq, Repr

/-- Immutable state of a constructed `LogStitch` client
(client.ts lines 20-27), minus the owned queue, whose state lives in
`BatchQueueState`. -/
structure Client where
  baseUrl : String
  projectKey : Option String
  strict : Bool
  hasOnError : Bool
  cfg : QueueConfig
  mode : Mode
  streamToken : Option String
deriving DecidableEq, Repr

/-- `baseUrl.replace(/\/+$/, '')` (client.ts lines 54 and 78): strip all
trailing slashes. -/
def stripTrailingSlashes (s : String) : String :=
  String.mk ((s.data.reverse.dropWhile (fun c => c = '/')).reverse)

/-- The `LogStitch` constructor (client.ts lines 66-104). The optional
internal argument `{ mode: 'stream'; streamToken }` is modelled by the
optional stream token; the missing-credential check throws exactly when
the mode is authenticated and `projectKey` is falsy. -/
def construct (options : LogStitchOptions)
    (internal : Option String) : Except String Client :=
  let mode := if internal.isSome then Mode.stream else Mode.authenticated
  if mode = Mode.authenticated && strFalsy options.projectKey then
    .error "LogStitch: projectKey is required"
  else
    .ok { baseUrl := stripTrailingSlashes (options.baseUrl.getD "https://logstitch.io")
          projectKey := options.projectKey
          strict := options.strict.getD false
          hasOnError := options.hasOnError
          cfg := { batchSize := options.batchSize.getD 10
                   flushInterval := options.flushInterval.getD 5000
                   maxQueueSize := options.maxQueueSize.getD 1000 }
          mode := mode
          streamToken := internal }

/-- The static `LogStitch.stream` factory (client.ts lines 42-59): fixed
placeholder `projectKey` `'__stream__'`, and the claim token is the
caller-supplied one or a fresh `crypto.randomUUID()` (passed in as
`genToken`). -/
def stream (options : LogStitchOptions) (token : Option String)
    (genToken : String) : Except String Client :=
  construct { options with projectKey := some "__stream__" }
    (some (token.getD genToken))

/-- The URL `_sendAndReturn` posts to (client.ts lines 138-140). -/
def sendUrl (c : Client) : String :=
  if c.mode = Mode.stream then
    c.baseUrl ++ "/api/v1/streams/" ++ (c.streamToken.getD "null") ++ "/events"
  else
    c.baseUrl ++ "/api/v1/events"

/-- The headers `_sendAndReturn` sends (client.ts lines 142-147): the
Authorization bearer header is added only in authenticated mode. -/
def sendHeaders (c : Client) : List (String × String) :=
  let headers := [("Content-Type", "application/json")]
  if c.mode = Mode.authenticated then
    headers ++ [("Authorization", "Bearer " ++ c.projectKey.getD "undefined")]
  else
    headers

/-- `events.list` as bound by the constructor (client.ts lines 89-103):
in stream mode the bound closure throws immediately; in authenticated mode
it delegates to `_listEvents` (whose request/response mapping is outside
the queue/transport core). -/
def eventsList (c : Client) : Except String Unit :=
  if c.mode = Mode.stream then
    .error "LogStitch: events.list() is not available in stream mode"
  else
    .ok ()

/-- `viewerTokens.create` as bound by the constructor
(client.ts lines 89-103). -/
def viewerTokensCreate (c : Client) : Except String Unit :=
  if c.mode = Mode.stream then
    .error "LogStitch: viewerTokens.create() is not available in stream mode"
  else
    .ok ()

/-- Observable outcome of `_handleError` / the facade's send wrapper:
what was thrown out of the call (if anything), and the errors the
`onError` callback was invoked with, in order. -/
structure HandleResult where
  thrown : Option SendError
  callbackCalls : List SendError
deriving DecidableEq, Repr

/-- `_handleError` (client.ts lines 212-218): strict mode re-throws;
otherwise the optional callback is invoked (`this.onError?.(error)`) and
the error is discarded. -/
def handleError (c : Client) (err : SendError) : HandleResult :=
  if c.strict then
    { thrown := some err, callbackCalls := [] }
  else
    { thrown := none, callbackCalls := if c.hasOnError then [err] else [] }

/-- `_send` (client.ts lines 129-135), the operation the constructor binds
as the queue's flush handler: it awaits `_sendAndReturn`, whose settled
outcome is passed in as `delivery`, and routes any failure through
`_handleError`. -/
def sendHandler (c : Client) (delivery : Except SendError Unit) : HandleResult :=
  match delivery with
  | .ok _ => { thrown := none, callbackCalls := [] }
  | .error e => handleError c e

/-! ### Heap view of the copy-on-write enrichment

JavaScript objects are references into a heap; `{ ...e, idempotency_key }`
allocates a fresh object and leaves the one the caller passed in
untouched. To state that frame property non-vacuously, the heap is
modelled as a list of event objects addressed by index, and the
enrichment of queue.ts lines 31-33 / client.ts lines 115-117 as a heap
transformer returning the reference actually committed. -/

/-- Heap of allocated event objects, addressed by allocation index. -/
abbrev Heap : Type := List EventInput

/-- Number of allocated objects. -/
def Heap.size (h : Heap) : Nat := List.length h

/-- The object a reference points to. -/
def Heap.read (h : Heap) (r : Nat) : Option EventInput := List.get? h r

/-- Heap-level view of the shared enrichment construct: dereference `r`;
if the object's key is falsy, allocate a shallow copy carrying the fresh
key `gen` and commit the copy's reference; otherwise commit `r` itself.
The addressed object is never written. -/
def enrichAlloc (heap : Heap) (r : Nat) (gen : String) : Heap × Nat :=
  match Heap.read heap r with
  | none => (heap, r)
  | some e =>
    if strFalsy e.idempotency_key then
      (List.append heap [{ e with idempotency_key := some gen }], Heap.size heap)
    else
      (heap, r)

/-- Heap-level view of the `events.map(...)` of `logBatch`: enrich each
caller-supplied reference in order, threading the heap, and return the
references committed to the payload. -/
def enrichAllAlloc (gen : Nat → String) : Heap → List Nat → Heap × List Nat
  | heap, [] => (heap, [])
  | heap, r :: rs =>
    let p := enrichAlloc heap r (gen 0)
    let q := enrichAllAlloc (fun i => gen (i + 1)) p.1 rs
    (q.1, p.2 :: q.2)

/-- A concrete event, mirroring `makeEvent` from the repository's tests:
used to instantiate the general theorems at concrete inputs. -/
def sampleEvent : EventInput :=
  { action := "user.created", category := .mutation,
    actor := { id := "usr_1", type := .user, name := none, email := none },
    tenant_id := "tenant_1", target := none, context := none,
    metadata := [], changes := [], idempotency_key := none, occurred_at := none }

/-! ## Helper lemmas about the retry loop -/

theorem retryGo_calls_le (fetch : Nat → AttemptResult) (rand : Nat → ℚ) (b m : ℚ) :
    ∀ rem a, (retryGo fetch rand b m a rem).calls ≤ rem := by
  intro rem
  induction rem with
  | zero => intro a; simp [retryGo]
  | succ k ih =>
    intro a
    cases hfa : fetch a with
    | networkError msg =>
      by_cases hk : k = 0
      · simp [retryGo, hfa, hk]
      · have := ih (a + 1)
        simp only [retryGo, hfa, hk, if_false]
        omega
    | response status =>
      by_cases hr : returnNow status
      · simp [retryGo, hfa, hr]
      · by_cases hk : k = 0
        · simp [retryGo, hfa, hr, hk]
        · have := ih (a + 1)
          simp only [retryGo, hfa, hr, hk, if_false, Bool.false_eq_true]
          omega

theorem retryGo_calls_pos (fetch : Nat → AttemptResult) (rand : Nat → ℚ) (b m : ℚ)
    (rem a : Nat) (hrem : 1 ≤ rem) : 1 ≤ (retryGo fetch rand b m a rem).calls := by
  obtain ⟨k, rfl⟩ : ∃ k, rem = k + 1 := ⟨rem - 1, by omega⟩
  cases hfa : fetch a with
  | networkError msg =>
    by_cases hk : k = 0
    · simp [retryGo, hfa, hk]
    · simp only [retryGo, hfa, hk, if_false]
      omega
  | response status =>
    by_cases hr : returnNow status
    · simp [retryGo, hfa, hr]
    · by_cases hk : k = 0
      · simp [retryGo, hfa, hr, hk]
      · simp only [retryGo, hfa, hr, hk, if_false, Bool.false_eq_true]
        omega

theorem retryGo_return_first (fetch : Nat → AttemptResult) (rand : Nat → ℚ) (b m : ℚ)
    (rem a : Nat) (status : Nat) (hfa : fetch a = .response status)
    (hr : returnNow status = true) :
    retryGo fetch rand b m a (rem + 1) =
      { result := .ok status, calls := 1, delays := [] } := by
  simp [retryGo, hfa, hr]

theorem retryGo_const_retryable (fetch : Nat → AttemptResult) (rand : Nat → ℚ) (b m : ℚ)
    (status : Nat) (hr : returnNow status = false)
    (hf : ∀ i, fetch i = .response status) :
    ∀ rem a, 1 ≤ rem →
      (retryGo fetch rand b m a rem).result = .error (.http status) ∧
      (retryGo fetch rand b m a rem).calls = rem := by
  intro rem
  induction rem with
  | zero => intro a h; omega
  | succ k ih =>
    intro a _
    by_cases hk : k = 0
    · simp [retryGo, hf a, hr, hk]
    · have := ih (a + 1) (by omega)
      simp only [retryGo, hf a, hr, hk, if_false, Bool.false_eq_true]
      constructor
      · exact this.1
      · omega

theorem retryGo_const_network (fetch : Nat → AttemptResult) (rand : Nat → ℚ) (b m : ℚ)
    (msg : Nat → String) (hf : ∀ i, fetch i = .networkError (msg i)) :
    ∀ rem a, 1 ≤ rem →
      (retryGo fetch rand b m a rem).result = .error (.network (msg (a + rem - 1))) ∧
      (retryGo fetch rand b m a rem).calls = rem := by
  intro rem
  induction rem with
  | zero => intro a h; omega
  | succ k ih =>
    intro a _
    by_cases hk : k = 0
    · simp [retryGo, hf a, hk]
    · have := ih (a + 1) (by omega)
      have harith : a + 1 + k - 1 = a + (k + 1) - 1 := by omega
      simp only [retryGo, hf a, hk, if_false]
      constructor
      · rw [this.1, harith]
      · omega

theorem retryGo_skip_network (rand : Nat → ℚ) (b m : ℚ) (status : Nat)
    (hr : returnNow status = true) :
    ∀ (k a rem : Nat) (fetch : Nat → AttemptResult),
      (∀ j, j < k → ∃ msg, fetch (a + j) = .networkError msg) →
      fetch (a + k) = .response status → k < rem →
      (retryGo fetch rand b m a rem).result = .ok status ∧
      (retryGo fetch rand b m a rem).calls = k + 1 := by
  intro k
  induction k with
  | zero =>
    intro a rem fetch _ hresp hlt
    obtain ⟨r, rfl⟩ : ∃ r, rem = r + 1 := ⟨rem - 1, by omega⟩
    rw [retryGo_return_first fetch rand b m r a status (by simpa using hresp) hr]
    exact ⟨rfl, rfl⟩
  | succ k ih =>
    intro a rem fetch hnet hresp hlt
    obtain ⟨r, rfl⟩ : ∃ r, rem = r + 1 := ⟨rem - 1, by omega⟩
    obtain ⟨msg, hmsg⟩ := hnet 0 (by omega)
    have hr0 : r ≠ 0 := by omega
    have hnext : ∀ j, j < k → ∃ msg, fetch (a + 1 + j) = .networkError msg := by
      intro j hj
      have := hnet (j + 1) (by omega)
      simpa [Nat.add_assoc, Nat.add_comm 1 j] using this
    have hresp' : fetch (a + 1 + k) = .response status := by
      have harith : a + 1 + k = a + (k + 1) := by omega
      rw [harith]; exact hresp
    have := ih (a + 1) r fetch hnext hresp' (by omega)
    simp only [retryGo, Nat.add_zero] at hmsg ⊢
    rw [hmsg]
    simp only [hr0, if_false]
    exact ⟨this.1, by omega⟩

theorem retryGo_delays_trace (fetch : Nat → AttemptResult) (rand : Nat → ℚ) (b m : ℚ) :
    ∀ rem a, (retryGo fetch rand b m a rem).delays =
      (List.range ((retryGo fetch rand b m a rem).calls - 1)).map
        (fun i => getDelay (a + i) b m (rand (a + i))) := by
  intro rem
  induction rem with
  | zero => intro a; simp [retryGo]
  | succ k ih =>
    intro a
    cases hfa : fetch a with
    | networkError msg =>
      by_cases hk : k = 0
      · simp [retryGo, hfa, hk]
      · have hpos := retryGo_calls_pos fetch rand b m k (a + 1) (by omega)
        obtain ⟨c, hc⟩ : ∃ c, (retryGo fetch rand b m (a + 1) k).calls = c + 1 :=
          ⟨(retryGo fetch rand b m (a + 1) k).calls - 1, by omega⟩
        simp only [retryGo, hfa, hk, if_false]
        rw [ih (a + 1), hc]
        simp only [Nat.add_sub_cancel, List.range_succ_eq_map, List.map_cons,
          Nat.add_zero, List.map_map, List.cons.injEq, true_and]
        apply List.map_congr_left
        intro i _
        simp only [Function.comp]
        have harith : a + 1 + i = a + i.succ := by omega
        rw [harith]
    | response status =>
      by_cases hret : returnNow status
      · simp [retryGo, hfa, hret]
      · by_cases hk : k = 0
        · simp [retryGo, hfa, hret, hk]
        · have hpos := retryGo_calls_pos fetch rand b m k (a + 1) (by omega)
          obtain ⟨c, hc⟩ : ∃ c, (retryGo fetch rand b m (a + 1) k).calls = c + 1 :=
            ⟨(retryGo fetch rand b m (a + 1) k).calls - 1, by omega⟩
          simp only [retryGo, hfa, hret, hk, if_false, Bool.false_eq_true]
          rw [ih (a + 1), hc]
          simp only [Nat.add_sub_cancel, List.range_succ_eq_map, List.map_cons,
            Nat.add_zero, List.map_map, List.cons.injEq, true_and]
          apply List.map_congr_left
          intro i _
          simp only [Function.comp]
          have harith : a + 1 + i = a + i.succ := by omega
          rw [harith]

theorem returnNow_of_5xx (status : Nat) (h : 500 ≤ status) : returnNow status = false := by
  simp only [returnNow, responseOk, Bool.or_eq_false_iff, Bool.and_eq_false_iff,
    decide_eq_false_iff_not, not_lt, not_le]
  omega

theorem returnNow_of_4xx (status : Nat) (h4 : 400 ≤ status) (h5 : status < 500) :
    returnNow status = true := by
  simp only [returnNow, responseOk, Bool.or_eq_true, Bool.and_eq_true, decide_eq_true_eq]
  omega

/-! ## Claim theorems about the delivery transport -/

/-- Claim C1: evaluation at the failing input. The status 304 lies in
[200,400), which the claim (and spec) says is returned immediately to the
caller without any further attempt; but `Response.ok` covers only 200-299,
so 304 fails the immediate-return test of retry.ts line 31 and falls into
the branch commented `// 5xx — retry`: with default options (as the client
calls it), a persistent 304 produces 3 fetch calls and a thrown
`HTTP 304` instead of being returned after one attempt. -/
theorem c1_redirect_retried :
    (200 ≤ 304 ∧ 304 < 400) ∧ returnNow 304 = false ∧
    (fetchWithRetry (fun _ => .response 304) (fun _ => 0) none).calls = 3 ∧
    (fetchWithRetry (fun _ => .response 304) (fun _ => 0) none).result =
      Except.error (.http 304) := by
  refine ⟨⟨by omega, by omega⟩, by decide, ?_, ?_⟩ <;> rfl

/-- Claim C5: with `maxAttempts = n` (n ≥ 1), the transport makes at most
`n` fetch calls; a 500+ status on every attempt gives exactly `n` calls
and a surfaced failure carrying that status; a persistent network failure
is retried until the final attempt, whose failure propagates; network
failures followed by a returnable response within the budget are retried
through to that response; and a 4xx first response is surfaced after
exactly one call. -/
theorem c5_attempt_budget (n : Nat) (hn : 1 ≤ n) (b m : ℚ) (rand : Nat → ℚ) :
    (∀ fetch, (fetchWithRetry fetch rand (some ⟨some n, some b, some m⟩)).calls ≤ n) ∧
    (∀ (fetch : Nat → AttemptResult) (status : Nat), 500 ≤ status →
      (∀ i, fetch i = .response status) →
      (fetchWithRetry fetch rand (some ⟨some n, some b, some m⟩)).result =
        Except.error (.http status) ∧
      (fetchWithRetry fetch rand (some ⟨some n, some b, some m⟩)).calls = n) ∧
    (∀ (fetch : Nat → AttemptResult) (msg : Nat → String),
      (∀ i, fetch i = .networkError (msg i)) →
      (fetchWithRetry fetch rand (some ⟨some n, some b, some m⟩)).result =
        Except.error (.network (msg (n - 1))) ∧
      (fetchWithRetry fetch rand (some ⟨some n, some b, some m⟩)).calls = n) ∧
    (∀ (fetch : Nat → AttemptResult) (k status : Nat), k < n →
      (∀ j, j < k → ∃ msg, fetch j = .networkError msg) →
      fetch k = .response status → returnNow status = true →
      (fetchWithRetry fetch rand (some ⟨some n, some b, some m⟩)).result =
        Except.ok status ∧
      (fetchWithRetry fetch rand (some ⟨some n, some b, some m⟩)).calls = k + 1) ∧
    (∀ (fetch : Nat → AttemptResult) (status : Nat), 400 ≤ status → status < 500 →
      fetch 0 = .response status →
      (fetchWithRetry fetch rand (some ⟨some n, some b, some m⟩)).result =
        Except.ok status ∧
      (fetchWithRetry fetch rand (some ⟨some n, some b, some m⟩)).calls = 1) := by
  have hunf : ∀ fetch : Nat → AttemptResult,
      fetchWithRetry fetch rand (some ⟨some n, some b, some m⟩) =
        retryGo fetch rand b m 0 n := fun _ => rfl
  refine ⟨?_, ?_, ?_, ?_, ?_⟩
  · intro fetch
    rw [hunf]
    exact retryGo_calls_le fetch rand b m n 0
  · intro fetch status h5 hf
    rw [hunf]
    exact retryGo_const_retryable fetch rand b m status (returnNow_of_5xx status h5) hf n 0 hn
  · intro fetch msg hf
    rw [hunf]
    have := retryGo_const_network fetch rand b m msg hf n 0 hn
    simpa using this
  · intro fetch k status hk hnet hresp hret
    rw [hunf]
    refine retryGo_skip_network rand b m status hret k 0 n fetch ?_ ?_ hk
    · intro j hj
      simpa using hnet j hj
    · simpa using hresp
  · intro fetch status h4 h5 hresp
    rw [hunf]
    obtain ⟨r, rfl⟩ : ∃ r, n = r + 1 := ⟨n - 1, by omega⟩
    rw [retryGo_return_first fetch rand b m r 0 status hresp (returnNow_of_4xx status h4 h5)]
    exact ⟨rfl, rfl⟩

/-- Claim C6: with `Math.random()` drawing `r ∈ [0,1)` and non-negative
delay configuration, the delay computed for the retry that follows
attempt `i` is `capped + capped * r` with `capped = min (b * 2 ^ i) m`,
hence lies in `[capped, 2 * capped]`; and in every run of the transport
the delays slept are exactly one per non-terminal attempt, in attempt
order, each given by `getDelay` at its attempt index — in particular no
delay follows the terminal attempt, whether it ends in final success or
final failure. -/
theorem c6_backoff_delays :
    (∀ (i : Nat) (b m r : ℚ), 0 ≤ b → 0 ≤ m → 0 ≤ r → r < 1 →
      getDelay i b m r = min (b * 2 ^ i) m + min (b * 2 ^ i) m * r ∧
      min (b * 2 ^ i) m ≤ getDelay i b m r ∧
      getDelay i b m r ≤ 2 * min (b * 2 ^ i) m) ∧
    (∀ (fetch : Nat → AttemptResult) (rand : Nat → ℚ) (opts : Option RetryOptions),
      (fetchWithRetry fetch rand opts).delays =
        (List.range ((fetchWithRetry fetch rand opts).calls - 1)).map
          (fun i => getDelay i ((opts.bind (·.baseDelay)).getD 500)
            ((opts.bind (·.maxDelay)).getD 30000) (rand i))) := by
  constructor
  · intro i b m r hb hm hr0 hr1
    have hcap : 0 ≤ min (b * 2 ^ i) m := by
      apply le_min _ hm
      positivity
    have hjit0 : 0 ≤ min (b * 2 ^ i) m * r := mul_nonneg hcap hr0
    have hjit1 : min (b * 2 ^ i) m * r ≤ min (b * 2 ^ i) m := by
      nlinarith
    refine ⟨rfl, by simp only [getDelay]; linarith, by simp only [getDelay]; linarith⟩
  · intro fetch rand opts
    have := retryGo_delays_trace fetch rand ((opts.bind (·.baseDelay)).getD 500)
      ((opts.bind (·.maxDelay)).getD 30000)
      ((opts.bind (·.maxAttempts)).getD 3) 0
    simpa [fetchWithRetry] using this

/-- Claim C5 witness: with `maxAttempts = 2` and a persistent 500, the
transport makes exactly 2 calls and surfaces `HTTP 500`. -/
theorem c5_attempt_budget_witness :
    (fetchWithRetry (fun _ => .response 500) (fun _ => 0)
        (some ⟨some 2, some 1, some 1⟩)).calls = 2 ∧
    (fetchWithRetry (fun _ => .response 500) (fun _ => 0)
        (some ⟨some 2, some 1, some 1⟩)).result = Except.error (.http 500) := by
  have h := (c5_attempt_budget 2 (by omega) 1 1 (fun _ => 0)).2.1
    (fun _ => .response 500) 500 (by omega) (fun _ => rfl)
  exact ⟨h.2, h.1⟩

/-- Claim C6 witness: attempt index 2, base delay 500, cap 30000 and a
random draw of 1/2 give a delay of 3000 = capped 2000 plus jitter 1000,
within `[capped, 2 * capped]`. -/
theorem c6_backoff_delays_witness :
    getDelay 2 500 30000 (1 / 2) = 3000 ∧
    min ((500 : ℚ) * 2 ^ 2) 30000 ≤ getDelay 2 500 30000 (1 / 2) ∧
    getDelay 2 500 30000 (1 / 2) ≤ 2 * min ((500 : ℚ) * 2 ^ 2) 30000 := by
  have h := c6_backoff_delays.1 2 500 30000 (1 / 2)
    (by norm_num) (by norm_num) (by norm_num) (by norm_num)
  refine ⟨?_, h.2.1, h.2.2⟩
  rw [h.1]
  norm_num

/-! ## Helper lemmas about the batch queue -/

theorem flushStart_none_iff (s : BatchQueueState) :
    BatchQueue.flushStart s = none ↔ s.flushing = true ∨ s.queue = [] := by
  rw [BatchQueue.flushStart]
  by_cases h : (s.flushing || s.queue.isEmpty) = true
  · rw [if_pos h]
    simpa [Bool.or_eq_true, List.isEmpty_iff] using h
  · rw [if_neg h]
    constructor
    · intro hc
      exact absurd hc (by simp)
    · intro hc
      exact absurd (by simpa [Bool.or_eq_true, List.isEmpty_iff] using hc) h

theorem flushStart_some_of (s : BatchQueueState) (hf : s.flushing = false)
    (hq : s.queue ≠ []) :
    BatchQueue.flushStart s =
      some ({ s with queue := [], flushing := true }, s.queue) := by
  rw [BatchQueue.flushStart, if_neg]
  simp [hf, List.isEmpty_iff, hq]

theorem enqueue_not_full (cfg : QueueConfig) (gen : String) (s : BatchQueueState)
    (e : EventInput) (h : s.queue.length < cfg.maxQueueSize) :
    BatchQueue.enqueue cfg gen s e =
      { state := { s with queue := s.queue ++ [enrichEvent gen e], timer := true },
        dropped := false,
        flushTriggered := decide (cfg.batchSize ≤ s.queue.length + 1) } := by
  rw [BatchQueue.enqueue, if_neg (by omega)]
  simp

theorem apply_length_le (cfg : QueueConfig) (s : BatchQueueState) (op : QueueOp)
    (h : s.queue.length ≤ cfg.maxQueueSize) :
    (QueueOp.apply cfg s op).queue.length ≤ cfg.maxQueueSize := by
  cases op with
  | enq gen e =>
    by_cases hfull : s.queue.length ≥ cfg.maxQueueSize
    · simp [QueueOp.apply, BatchQueue.enqueue, hfull, h]
    · rw [QueueOp.apply, enqueue_not_full cfg gen s e (by omega)]
      simp only [List.length_append, List.length_cons, List.length_nil]
      omega
  | flushBegin =>
    rw [QueueOp.apply]
    cases hst : BatchQueue.flushStart s with
    | none => exact h
    | some p =>
      rw [BatchQueue.flushStart] at hst
      by_cases hc : (s.flushing || s.queue.isEmpty) = true
      · rw [if_pos hc] at hst
        cases hst
      · rw [if_neg hc] at hst
        cases hst
        simp
  | flushEnd ok => simpa [QueueOp.apply, BatchQueue.flushFinish] using h

theorem runOps_length_le (cfg : QueueConfig) :
    ∀ (ops : List QueueOp) (s : BatchQueueState),
      s.queue.length ≤ cfg.maxQueueSize →
      (runOps cfg s ops).queue.length ≤ cfg.maxQueueSize := by
  intro ops
  induction ops with
  | nil => intro s h; simpa [runOps] using h
  | cons op rest ih =>
    intro s h
    have hstep : runOps cfg s (op :: rest) = runOps cfg (QueueOp.apply cfg s op) rest := by
      simp [runOps]
    rw [hstep]
    exact ih _ (apply_length_le cfg s op h)

/-! ## Claim theorems about the batch queue -/

/-- Claim C4: a `flush()` is a no-op (handler not invoked, state
unchanged, success returned) exactly when the guard is set or the queue
is empty; otherwise the whole queue is drained as one batch, the guard is
set for the duration of the handler and a fresh empty queue accumulates
subsequent enqueues; and when the handler settles — successfully or not —
the guard is cleared and the handler's outcome propagates unchanged to
the caller of `flush()`. -/
theorem c4_flush_guard {ε : Type} (s : BatchQueueState)
    (handler : List EventInput → Except ε Unit) :
    (s.flushing = true ∨ s.queue = [] →
      BatchQueue.flushRun handler s = (s, Except.ok (), none)) ∧
    (s.flushing = false → s.queue ≠ [] →
      BatchQueue.flushRun handler s =
        ({ queue := [], flushing := false, timer := s.timer },
          handler s.queue, some s.queue)) ∧
    (BatchQueue.flushStart s = none ↔ s.flushing = true ∨ s.queue = []) ∧
    (∀ (s' : BatchQueueState) (batch : List EventInput),
      BatchQueue.flushStart s = some (s', batch) →
      batch = s.queue ∧ s'.queue = [] ∧ s'.flushing = true ∧ s'.timer = s.timer) ∧
    (∀ (t : BatchQueueState) (outcome : Except ε Unit),
      (BatchQueue.flushFinish t outcome).1 = { t with flushing := false } ∧
      (BatchQueue.flushFinish t outcome).2 = outcome) := by
  refine ⟨?_, ?_, flushStart_none_iff s, ?_, ?_⟩
  · intro h
    have hnone := (flushStart_none_iff s).mpr h
    simp [BatchQueue.flushRun, hnone]
  · intro hf hq
    rw [BatchQueue.flushRun]
    rw [flushStart_some_of s hf hq]
    simp [BatchQueue.flushFinish]
  · intro s' batch hst
    rw [flushStart_some_of s ?hf ?hq] at hst
    case hf =>
      by_contra hc
      have : s.flushing = true := by
        cases hflag : s.flushing
        · exact absurd hflag hc
        · rfl
      rw [(flushStart_none_iff s).mpr (Or.inl this)] at hst
      cases hst
    case hq =>
      intro hc
      rw [(flushStart_none_iff s).mpr (Or.inr hc)] at hst
      cases hst
    cases hst
    exact ⟨rfl, rfl, rfl, rfl⟩
  · intro t outcome
    exact ⟨rfl, rfl⟩

/-- Claim C4 witness: a queue holding one event, guard clear, runs the
flush with a failing handler: the batch is the whole queue, the error
propagates, and the guard ends cleared. -/
theorem c4_flush_guard_witness :
    BatchQueue.flushRun (fun _ => Except.error "boom")
        { queue := [sampleEvent], flushing := false, timer := true } =
      ({ queue := [], flushing := false, timer := true },
        Except.error "boom", some [sampleEvent]) :=
  (c4_flush_guard { queue := [sampleEvent], flushing := false, timer := true }
    (fun _ => Except.error "boom")).2.1 rfl (by simp)

/-- Claim C7: an `enqueue` against a queue at or beyond `maxQueueSize`
leaves the state (contents and length) unchanged, reports the drop and
triggers no flush — `enqueue` is total, so no error reaches the caller —
and consequently, after any sequence of interleaved enqueue/flush
operations from the initial state, the queue length never exceeds
`maxQueueSize`. -/
theorem c7_backpressure (cfg : QueueConfig) :
    (∀ (gen : String) (s : BatchQueueState) (e : EventInput),
      cfg.maxQueueSize ≤ s.queue.length →
      BatchQueue.enqueue cfg gen s e =
        { state := s, dropped := true, flushTriggered := false }) ∧
    (∀ ops : List QueueOp,
      (runOps cfg BatchQueue.init ops).queue.length ≤ cfg.maxQueueSize) := by
  constructor
  · intro gen s e h
    rw [BatchQueue.enqueue, if_pos (by omega)]
  · intro ops
    exact runOps_length_le cfg ops BatchQueue.init (by simp [BatchQueue.init])

/-- Claim C7 witness: with `maxQueueSize = 0` the very first enqueue is
dropped with the state unchanged, and a run of several operations keeps
the length within the bound. -/
theorem c7_backpressure_witness :
    BatchQueue.enqueue { batchSize := 10, flushInterval := 5000, maxQueueSize := 0 }
        "k" BatchQueue.init sampleEvent =
      { state := BatchQueue.init, dropped := true, flushTriggered := false } ∧
    (runOps { batchSize := 1, flushInterval := 5000, maxQueueSize := 2 }
        BatchQueue.init
        [QueueOp.enq "a" sampleEvent, QueueOp.enq "b" sampleEvent,
          QueueOp.enq "c" sampleEvent, QueueOp.flushBegin,
          QueueOp.flushEnd false]).queue.length ≤ 2 :=
  ⟨(c7_backpressure { batchSize := 10, flushInterval := 5000, maxQueueSize := 0 }).1
      "k" BatchQueue.init sampleEvent (by simp [BatchQueue.init]),
    (c7_backpressure { batchSize := 1, flushInterval := 5000, maxQueueSize := 2 }).2 _⟩

/-! ## Claim theorems about the facade's error policy -/

/-- Claim C2 counterexample: in strict mode, the flush handler the facade
binds to the queue does throw. `_send` catches the delivery failure but
routes it through `_handleError`, which in strict mode re-throws
(client.ts line 215), so the background flush rejects with the delivery
error rather than routing it through the non-strict policy. -/
theorem c2_strict_counterexample :
    (sendHandler
        { baseUrl := "https://logstitch.io", projectKey := some "pk_live_test",
          strict := true, hasOnError := true,
          cfg := { batchSize := 10, flushInterval := 5000, maxQueueSize := 1000 },
          mode := Mode.authenticated, streamToken := none }
        (Except.error (SendError.api 400 "validation_error" "bad" "req_1"))).thrown =
      some (SendError.api 400 "validation_error" "bad" "req_1") := by
  decide

/-- Claim C2 (amended): in non-strict mode the flush handler never
throws — a failing delivery invokes the optional error callback exactly
once and is otherwise discarded, and a successful delivery invokes
nothing; in strict mode `_handleError` re-throws, so the flush handler
surfaces the delivery error (and the callback is not invoked). -/
theorem c2_flush_handler_policy (c : Client) (delivery : Except SendError Unit) :
    (c.strict = false →
      (sendHandler c delivery).thrown = none ∧
      (∀ e, delivery = Except.error e →
        (sendHandler c delivery).callbackCalls =
          if c.hasOnError then [e] else []) ∧
      (delivery = Except.ok () → (sendHandler c delivery).callbackCalls = [])) ∧
    (c.strict = true → ∀ e, delivery = Except.error e →
      (sendHandler c delivery).thrown = some e ∧
      (sendHandler c delivery).callbackCalls = []) := by
  constructor
  · intro hns
    cases delivery with
    | ok v =>
      cases v
      refine ⟨rfl, ?_, fun _ => rfl⟩
      intro e he
      cases he
    | error e =>
      simp only [sendHandler, handleError, hns]
      refine ⟨rfl, ?_, ?_⟩
      · intro e' he'
        cases he'
        simp
      · intro hc
        cases hc
  · intro hs e he
    cases he
    simp [sendHandler, handleError, hs]

/-- Claim C2 witness: a non-strict client with a callback, on a failing
delivery, throws nothing and invokes the callback once with the error. -/
theorem c2_flush_handler_policy_witness :
    (sendHandler
        { baseUrl := "https://logstitch.io", projectKey := some "pk_live_test",
          strict := false, hasOnError := true,
          cfg := { batchSize := 10, flushInterval := 5000, maxQueueSize := 1000 },
          mode := Mode.authenticated, streamToken := none }
        (Except.error (SendError.api 400 "validation_error" "bad" "req_1"))).thrown =
      none ∧
    (sendHandler
        { baseUrl := "https://logstitch.io", projectKey := some "pk_live_test",
          strict := false, hasOnError := true,
          cfg := { batchSize := 10, flushInterval := 5000, maxQueueSize := 1000 },
          mode := Mode.authenticated, streamToken := none }
        (Except.error (SendError.api 400 "validation_error" "bad" "req_1"))).callbackCalls =
      [SendError.api 400 "validation_error" "bad" "req_1"] := by
  have h := (c2_flush_handler_policy
    { baseUrl := "https://logstitch.io", projectKey := some "pk_live_test",
      strict := false, hasOnError := true,
      cfg := { batchSize := 10, flushInterval := 5000, maxQueueSize := 1000 },
      mode := Mode.authenticated, streamToken := none }
    (Except.error (SendError.api 400 "validation_error" "bad" "req_1"))).1 rfl
  exact ⟨h.1, by simpa using h.2.1 _ rfl⟩

/-! ## Helper lemmas about idempotency-key enrichment -/

theorem strFalsy_enrichEvent (gen : String) (hg : gen ≠ "") (e : EventInput) :
    strFalsy (enrichEvent gen e).idempotency_key = false := by
  rw [enrichEvent]
  by_cases h : strFalsy e.idempotency_key = true
  · rw [if_pos h]
    simpa [strFalsy] using hg
  · rw [if_neg h]
    simpa using h

theorem enrichEvent_of_key (gen : String) (e : EventInput) (k : String)
    (hk : e.idempotency_key = some k) (hk' : k ≠ "") : enrichEvent gen e = e := by
  rw [enrichEvent, if_neg]
  simp [strFalsy, hk, hk']

theorem enrichEvent_of_falsy (gen : String) (e : EventInput)
    (h : strFalsy e.idempotency_key = true) :
    enrichEvent gen e = { e with idempotency_key := some gen } := by
  rw [enrichEvent, if_pos h]

theorem enrichAll_length (events : List EventInput) :
    ∀ gen : Nat → String, (enrichAll gen events).length = events.length := by
  induction events with
  | nil => intro gen; rfl
  | cons e es ih => intro gen; simp [enrichAll, ih]

theorem enrichAll_get? (events : List EventInput) :
    ∀ (gen : Nat → String) (i : Nat),
      (enrichAll gen events).get? i = (events.get? i).map (enrichEvent (gen i)) := by
  induction events with
  | nil => intro gen i; simp [enrichAll]
  | cons e es ih =>
    intro gen i
    cases i with
    | zero => simp [enrichAll]
    | succ j => simpa [enrichAll] using ih (fun i => gen (i + 1)) j

theorem enrichAll_keys (events : List EventInput) :
    ∀ (gen : Nat → String), (∀ i, gen i ≠ "") →
      ∀ e ∈ enrichAll gen events, strFalsy e.idempotency_key = false := by
  induction events with
  | nil => intro gen _ e he; simp [enrichAll] at he
  | cons e es ih =>
    intro gen hgen e' he'
    rw [enrichAll] at he'
    rcases List.mem_cons.mp he' with h | h
    · rw [h]
      exact strFalsy_enrichEvent (gen 0) (hgen 0) e
    · exact ih (fun i => gen (i + 1)) (fun i => hgen (i + 1)) e' h

theorem apply_preserves_keys (cfg : QueueConfig) (s : BatchQueueState) (op : QueueOp)
    (hop : ∀ g e, op = QueueOp.enq g e → g ≠ "")
    (h : ∀ e ∈ s.queue, strFalsy e.idempotency_key = false) :
    ∀ e ∈ (QueueOp.apply cfg s op).queue, strFalsy e.idempotency_key = false := by
  cases op with
  | enq gen ev =>
    by_cases hfull : s.queue.length ≥ cfg.maxQueueSize
    · simpa [QueueOp.apply, BatchQueue.enqueue, hfull] using h
    · rw [QueueOp.apply, enqueue_not_full cfg gen s ev (by omega)]
      intro e he
      rcases List.mem_append.mp he with h1 | h1
      · exact h e h1
      · rw [List.mem_singleton.mp h1]
        exact strFalsy_enrichEvent gen (hop gen ev rfl) ev
  | flushBegin =>
    rw [QueueOp.apply]
    cases hst : BatchQueue.flushStart s with
    | none => exact h
    | some p =>
      rw [BatchQueue.flushStart] at hst
      by_cases hc : (s.flushing || s.queue.isEmpty) = true
      · rw [if_pos hc] at hst; cases hst
      · rw [if_neg hc] at hst
        cases hst
        intro e he
        simp at he
  | flushEnd ok => simpa [QueueOp.apply, BatchQueue.flushFinish] using h

theorem runOps_preserves_keys (cfg : QueueConfig) :
    ∀ (ops : List QueueOp) (s : BatchQueueState),
      (∀ g e, QueueOp.enq g e ∈ ops → g ≠ "") →
      (∀ e ∈ s.queue, strFalsy e.idempotency_key = false) →
      ∀ e ∈ (runOps cfg s ops).queue, strFalsy e.idempotency_key = false := by
  intro ops
  induction ops with
  | nil => intro s _ h; simpa [runOps] using h
  | cons op rest ih =>
    intro s hops h
    have hstep : runOps cfg s (op :: rest) = runOps cfg (QueueOp.apply cfg s op) rest := by
      simp [runOps]
    rw [hstep]
    refine ih _ (fun g e hmem => hops g e (List.mem_cons_of_mem op hmem)) ?_
    exact apply_preserves_keys cfg s op
      (fun g e hop => hops g e (hop ▸ List.mem_cons_self op rest)) h

/-! ## Claim theorems about idempotency keys -/

/-- Claim C3 counterexample: an event committed with an idempotency key
already present — the empty string — does not have that key preserved in
the delivered payload: both the `logBatch` enrichment and `enqueue`
replace it with a freshly generated key, because the source tests the key
with JavaScript truthiness, under which `""` counts as absent. -/
theorem c3_empty_key_counterexample :
    ({ sampleEvent with idempotency_key := some "" }).idempotency_key = some "" ∧
    (enrichAll (fun _ => "gen-0")
        [{ sampleEvent with idempotency_key := some "" }]).map
        (fun e => e.idempotency_key) = [some "gen-0"] ∧
    (BatchQueue.enqueue { batchSize := 10, flushInterval := 5000, maxQueueSize := 1000 }
        "gen-0" BatchQueue.init
        { sampleEvent with idempotency_key := some "" }).state.queue.map
        (fun e => e.idempotency_key) = [some "gen-0"] ∧
    some "gen-0" ≠ some "" := by
  refine ⟨rfl, ?_, ?_, by decide⟩ <;> rfl

/-- Claim C3 (amended): every event committed via `enqueue` or the
`logBatch` enrichment carries a non-empty idempotency key in the
delivered payload, provided the key generator yields non-empty keys (as
`crypto.randomUUID()` does); an event committed without a key — or with
the empty string for a key, which the truthiness test treats as absent —
receives the freshly generated key for its position, exactly once; and an
event committed with a non-empty key keeps it unchanged. A non-full
`enqueue` commits exactly the enriched event at the tail, and any
operation sequence from the initial state whose enqueues use non-empty
generated keys leaves only non-empty-keyed events in the queue (hence in
any batch later drained to the flush handler). -/
theorem c3_idempotency_commit (gen : Nat → String) (hgen : ∀ i, gen i ≠ "")
    (events : List EventInput) :
    ((enrichAll gen events).length = events.length) ∧
    (∀ (i : Nat) (e : EventInput), events.get? i = some e →
      (enrichAll gen events).get? i = some (enrichEvent (gen i) e)) ∧
    (∀ e ∈ enrichAll gen events, strFalsy e.idempotency_key = false) ∧
    (∀ (i : Nat) (e : EventInput) (k : String), events.get? i = some e →
      e.idempotency_key = some k → k ≠ "" →
      (enrichAll gen events).get? i = some e) ∧
    (∀ (i : Nat) (e : EventInput), events.get? i = some e →
      strFalsy e.idempotency_key = true →
      (enrichAll gen events).get? i =
        some { e with idempotency_key := some (gen i) }) ∧
    (∀ (cfg : QueueConfig) (g : String) (s : BatchQueueState) (e : EventInput),
      s.queue.length < cfg.maxQueueSize →
      (BatchQueue.enqueue cfg g s e).state.queue = s.queue ++ [enrichEvent g e]) ∧
    (∀ (cfg : QueueConfig) (ops : List QueueOp),
      (∀ g e, QueueOp.enq g e ∈ ops → g ≠ "") →
      ∀ e ∈ (runOps cfg BatchQueue.init ops).queue,
        strFalsy e.idempotency_key = false) := by
  refine ⟨enrichAll_length events gen, ?_, enrichAll_keys events gen hgen, ?_, ?_, ?_, ?_⟩
  · intro i e he
    rw [enrichAll_get? events gen i, he]
    rfl
  · intro i e k he hk hk'
    rw [enrichAll_get? events gen i, he]
    simp [enrichEvent_of_key (gen i) e k hk hk']
  · intro i e he hf
    rw [enrichAll_get? events gen i, he]
    simp [enrichEvent_of_falsy (gen i) e hf]
  · intro cfg g s e h
    rw [enqueue_not_full cfg g s e h]
  · intro cfg ops hops
    exact runOps_preserves_keys cfg ops BatchQueue.init hops (by simp [BatchQueue.init])

/-- Claim C3 witness: a keyless event enriched at position 0 receives the
generated key, and an event with key "mine" keeps it. -/
theorem c3_idempotency_commit_witness :
    (enrichAll (fun _ => "u") [sampleEvent]).get? 0 =
      some { sampleEvent with idempotency_key := some "u" } ∧
    (enrichAll (fun _ => "u")
        [{ sampleEvent with idempotency_key := some "mine" }]).get? 0 =
      some { sampleEvent with idempotency_key := some "mine" } := by
  have h := c3_idempotency_commit (fun _ => "u")
    (by intro i; show ("u" : String) ≠ ""; decide) [sampleEvent]
  have h2 := c3_idempotency_commit (fun _ => "u")
    (by intro i; show ("u" : String) ≠ ""; decide)
    [{ sampleEvent with idempotency_key := some "mine" }]
  exact ⟨h.2.2.2.2.1 0 sampleEvent rfl (by decide),
    h2.2.2.2.1 0 { sampleEvent with idempotency_key := some "mine" } "mine" rfl rfl
      (by decide)⟩

/-! ## Claim theorems about construction and stream mode -/

/-- Claim C8: public construction (no internal stream argument) throws
synchronously exactly when the required credential is absent or empty,
and succeeds for every non-empty credential. The constructor is a pure
state builder in this embedding — it performs no network request, so the
failure precedes any network activity. -/
theorem c8_credential_check :
    (∀ options : LogStitchOptions,
      options.projectKey = none ∨ options.projectKey = some "" →
      construct options none = Except.error "LogStitch: projectKey is required") ∧
    (∀ (options : LogStitchOptions) (k : String),
      options.projectKey = some k → k ≠ "" →
      ∃ c, construct options none = Except.ok c ∧ c.projectKey = some k ∧
        c.mode = Mode.authenticated) := by
  constructor
  · intro options h
    rw [construct]
    have hfalsy : strFalsy options.projectKey = true := by
      rcases h with h | h <;> simp [strFalsy, h]
    simp [hfalsy]
  · intro options k hk hk'
    rw [construct]
    have hfalsy : strFalsy options.projectKey = false := by
      simp [strFalsy, hk, hk']
    simp only [Option.isSome_none, Bool.false_eq_true, if_false, hfalsy,
      Bool.and_false, Bool.false_eq_true]
    exact ⟨_, rfl, hk, rfl⟩

/-- Claim C8 witness: construction with an empty credential fails with
the required-key error; with credential `pk_live_test` it succeeds. -/
theorem c8_credential_check_witness :
    construct { projectKey := some "", baseUrl := none, batchSize := none,
                flushInterval := none, maxQueueSize := none, strict := none,
                hasOnError := false } none =
      Except.error "LogStitch: projectKey is required" ∧
    ∃ c, construct { projectKey := some "pk_live_test", baseUrl := none,
                     batchSize := none, flushInterval := none,
                     maxQueueSize := none, strict := none,
                     hasOnError := false } none = Except.ok c ∧
      c.projectKey = some "pk_live_test" ∧ c.mode = Mode.authenticated := by
  constructor
  · exact c8_credential_check.1
      { projectKey := some "", baseUrl := none, batchSize := none,
        flushInterval := none, maxQueueSize := none, strict := none,
        hasOnError := false } (Or.inr rfl)
  · exact c8_credential_check.2
      { projectKey := some "pk_live_test", baseUrl := none, batchSize := none,
        flushInterval := none, maxQueueSize := none, strict := none,
        hasOnError := false } "pk_live_test" rfl (by decide)

/-- Claim C9: constructing with the internal stream argument (as the
static `LogStitch.stream` factory does) skips the credential check
entirely — construction succeeds for every option set, including an
absent or empty `projectKey`; the resulting client posts events to
`{baseUrl}/api/v1/streams/{token}/events` with no Authorization header;
and `events.list` / `viewerTokens.create` throw their
not-available-in-stream-mode errors. The factory itself passes the
placeholder key `'__stream__'` and the supplied or freshly generated
claim token. -/
theorem c9_stream_mode :
    (∀ (options : LogStitchOptions) (tok : String),
      ∃ c, construct options (some tok) = Except.ok c ∧
        c.mode = Mode.stream ∧ c.streamToken = some tok ∧
        sendUrl c = stripTrailingSlashes (options.baseUrl.getD "https://logstitch.io") ++
          "/api/v1/streams/" ++ tok ++ "/events" ∧
        sendHeaders c = [("Content-Type", "application/json")] ∧
        eventsList c =
          Except.error "LogStitch: events.list() is not available in stream mode" ∧
        viewerTokensCreate c =
          Except.error "LogStitch: viewerTokens.create() is not available in stream mode") ∧
    (∀ (options : LogStitchOptions) (g : String),
      ∃ c, stream options none g = Except.ok c ∧ c.streamToken = some g ∧
        c.projectKey = some "__stream__") := by
  constructor
  · intro options tok
    refine ⟨{ baseUrl := stripTrailingSlashes (options.baseUrl.getD "https://logstitch.io"),
              projectKey := options.projectKey,
              strict := options.strict.getD false,
              hasOnError := options.hasOnError,
              cfg := { batchSize := options.batchSize.getD 10,
                       flushInterval := options.flushInterval.getD 5000,
                       maxQueueSize := options.maxQueueSize.getD 1000 },
              mode := Mode.stream, streamToken := some tok }, ?_, rfl, rfl, ?_, ?_, rfl, rfl⟩
    · rw [construct]
      simp
    · rw [sendUrl]
      simp
    · rw [sendHeaders]
      simp
  · intro options g
    refine ⟨{ baseUrl := stripTrailingSlashes (options.baseUrl.getD "https://logstitch.io"),
              projectKey := some "__stream__",
              strict := options.strict.getD false,
              hasOnError := options.hasOnError,
              cfg := { batchSize := options.batchSize.getD 10,
                       flushInterval := options.flushInterval.getD 5000,
                       maxQueueSize := options.maxQueueSize.getD 1000 },
              mode := Mode.stream, streamToken := some g }, ?_, rfl, rfl⟩
    rw [stream, construct]
    simp

/-! ## Claim theorems about the caller-object frame property -/

/-- Claim C10: the copy-on-write enrichment used by `enqueue` and
`logBatch` never writes to an existing heap object: every pre-existing
reference — in particular the one the caller passed in — dereferences to
the same object afterwards; the committed reference holds the enriched
event, which agrees with the original on every field other than
`idempotency_key`; and threading a whole `logBatch` payload through the
heap preserves every pre-existing object as well. -/
theorem c10_no_mutation :
    (∀ (heap : Heap) (r : Nat) (gen : String) (i : Nat), i < heap.length →
      (enrichAlloc heap r gen).1.get? i = heap.get? i) ∧
    (∀ (heap : Heap) (r : Nat) (gen : String) (e : EventInput),
      Heap.read heap r = some e →
      (enrichAlloc heap r gen).1.get? (enrichAlloc heap r gen).2 =
        some (enrichEvent gen e)) ∧
    (∀ (gen : String) (e : EventInput),
      (enrichEvent gen e).action = e.action ∧
      (enrichEvent gen e).category = e.category ∧
      (enrichEvent gen e).actor = e.actor ∧
      (enrichEvent gen e).tenant_id = e.tenant_id ∧
      (enrichEvent gen e).target = e.target ∧
      (enrichEvent gen e).context = e.context ∧
      (enrichEvent gen e).metadata = e.metadata ∧
      (enrichEvent gen e).changes = e.changes ∧
      (enrichEvent gen e).occurred_at = e.occurred_at) ∧
    (∀ (gen : Nat → String) (refs : List Nat) (heap : Heap) (i : Nat),
      i < heap.length →
      (enrichAllAlloc gen heap refs).1.get? i = heap.get? i) := by
  have hframe : ∀ (heap : Heap) (r : Nat) (gen : String) (i : Nat), i < heap.length →
      (enrichAlloc heap r gen).1.get? i = heap.get? i := by
    intro heap r gen i hi
    cases hr : Heap.read heap r with
    | none => simp [enrichAlloc, hr]
    | some e =>
      by_cases hf : strFalsy e.idempotency_key = true
      · simp only [enrichAlloc, hr, hf, if_true, List.append_eq]
        rw [List.get?_eq_getElem?, List.get?_eq_getElem?, List.getElem?_append_left hi]
      · simp [enrichAlloc, hr, hf]
  have hlen : ∀ (heap : Heap) (r : Nat) (gen : String),
      heap.length ≤ (enrichAlloc heap r gen).1.length := by
    intro heap r gen
    cases hr : Heap.read heap r with
    | none => simp [enrichAlloc, hr]
    | some e =>
      by_cases hf : strFalsy e.idempotency_key = true
      · simp [enrichAlloc, hr, hf]
      · simp [enrichAlloc, hr, hf]
  refine ⟨hframe, ?_, ?_, ?_⟩
  · intro heap r gen e hr
    by_cases hf : strFalsy e.idempotency_key = true
    · simp only [enrichAlloc, hr, hf, if_true, List.append_eq, Heap.size]
      rw [List.get?_eq_getElem?, List.getElem?_concat_length]
      rw [enrichEvent_of_falsy gen e hf]
    · simp only [enrichAlloc, hr, hf, if_false, Bool.false_eq_true]
      have heq : enrichEvent gen e = e := by
        rw [enrichEvent, if_neg hf]
      rw [heq]
      simpa [Heap.read] using hr
  · intro gen e
    rw [enrichEvent]
    by_cases hf : strFalsy e.idempotency_key = true
    · rw [if_pos hf]
      exact ⟨rfl, rfl, rfl, rfl, rfl, rfl, rfl, rfl, rfl⟩
    · rw [if_neg hf]
      exact ⟨rfl, rfl, rfl, rfl, rfl, rfl, rfl, rfl, rfl⟩
  · intro gen refs
    induction refs generalizing gen with
    | nil => intro heap i hi; rfl
    | cons r rs ih =>
      intro heap i hi
      rw [enrichAllAlloc]
      have h1 := hframe heap r (gen 0) i hi
      have h2 := ih (fun i => gen (i + 1)) (enrichAlloc heap r (gen 0)).1 i
        (Nat.lt_of_lt_of_le hi (hlen heap r (gen 0)))
      exact h2.trans h1

/-- Claim C10 witness: enriching the sole (keyless) object of a
one-object heap leaves the caller's object readable unchanged at its
reference. -/
theorem c10_no_mutation_witness :
    (enrichAlloc [sampleEvent] 0 "u").1.get? 0 = ([sampleEvent] : Heap).get? 0 :=
  c10_no_mutation.1 [sampleEvent] 0 "u" 0 (by decide)

end LogStitch
